import Mathlib

/-!
Verification of the chess-engine tournament harness (`src/src/lib.rs`).

The move generator, board representation and UCI move codec live in the
external `queenfish` crate, which is not part of this repository. Following
the specification (sections 4.2 and 6.2), that library is modelled abstractly
as a structure of operations `ChessLib` over an arbitrary board and move
type; the properties the spec ascribes to `Move::from_uci` appear as explicit
hypotheses where a claim needs them.

Engine child processes are modelled by their observable reply behaviour: a
function from the current move list (which determines the `position` command
the arbiter sends) to the finite list of stdout lines produced in response to
the following `go` command; an exhausted list models EOF. The arbiter loops
in `Game::play` and `Engine::new` can spin forever (for instance when an
engine replies nothing), so they are embedded with explicit fuel; running out
of fuel for every fuel value models divergence. A Rust panic (an `unwrap` or
`expect` failure, or a failing `Move::from_uci`) is the `crashed` outcome.
-/

namespace Arena

/-- `queenfish::board::Turn`: the side to move. -/
inductive Turn where
  | WHITE
  | BLACK
deriving DecidableEq, Repr

/-- Modelled from the spec: the interface of the external chess library
(spec section 6.2). `from_uci` is `Move::from_uci` which, per section 4.2,
fails on a string that does not denote a legal move; since the Rust
signature returns a bare `Move`, a failure at the call site in
`Game::play` is a panic. -/
structure ChessLib (Board Move : Type) where
  turn : Board → Turn
  generate_moves : Board → List Move
  make_move : Board → Move → Board
  is_king_in_check : Board → Turn → Bool
  from_uci : String → Board → Option Move

/-- `GameResult` (lib.rs lines 124-130): `result` is `1` for a white win,
`-1` for a black win, `0` for a draw. -/
structure GameResult where
  white : String
  black : String
  moves_list : List String
  result : Int
deriving DecidableEq, Repr

/-- `GameResult::winner` (lib.rs lines 132-138). -/
def GameResult.winner (g : GameResult) : String :=
  if g.result = 1 then g.white
  else if g.result = -1 then g.black
  else ""

/-- `TimeControl` (lib.rs lines 110-114). -/
inductive TimeControl where
  | Infinite
  | TimePerMove (ms : Int)
deriving DecidableEq, Repr

/-- The mutable state of `Game::play`: the board, the `moves_list`, and (for
observing `disconnect`) the commands written so far to each engine process
stdin. -/
structure PlayState (Board : Type) where
  board : Board
  moves_list : List String
  white_cmds : List String
  black_cmds : List String
deriving DecidableEq, Repr

/-- How a run of `Game::play` ends: returning a `GameResult` (with the final
state, whose command logs witness what was sent to the engines), a Rust
panic, or no termination within the available fuel. -/
inductive Outcome (Board : Type) where
  | finished (r : GameResult) (final : PlayState Board)
  | crashed
  | diverged
deriving DecidableEq, Repr

/-- The `position ...` command formed at lib.rs lines 184-190. -/
def positionCommand (moves_list : List String) : String :=
  if moves_list.isEmpty then "position startpos\n"
  else "position startpos moves " ++ String.intercalate " " moves_list ++ "\n"

/-- The `go ...` command formed at lib.rs lines 192-199. -/
def goCommand : TimeControl → String
  | TimeControl.Infinite => "go infinite\n"
  | TimeControl.TimePerMove t => "go movetime " ++ toString t ++ "\n"

/-- Rust `str::starts_with` on strings, as a character-list prefix test. -/
def strStartsWith (s pre : String) : Bool :=
  pre.data.isPrefixOf s.data

/-- The whitespace characters `str::split_whitespace` splits on that can
occur in a UCI line. -/
def isWsChar (c : Char) : Bool :=
  c = ' ' || c = '\n' || c = '\t' || c = '\r'

/-- Rust `str::split_whitespace`: maximal runs of non-whitespace characters,
with empty runs dropped. `acc` holds the characters of the current run in
reverse. -/
def splitWsAux : List Char → List Char → List String
  | [], acc => if acc.isEmpty then [] else [String.mk acc.reverse]
  | c :: cs, acc =>
    if isWsChar c then
      if acc.isEmpty then splitWsAux cs []
      else String.mk acc.reverse :: splitWsAux cs []
    else splitWsAux cs (c :: acc)

def splitWhitespace (s : String) : List String :=
  splitWsAux s.data []

/-- The inner read loop of `Game::play` (lib.rs lines 201-212): lines are
consumed until one starts with `bestmove`; every other line is discarded.
If the finite reply list holds no such line, the loop blocks forever. -/
def findBestmoveLine : List String → Option String
  | [] => none
  | l :: rest => if strStartsWith l "bestmove" then some l else findBestmoveLine rest

/-- `line.split_whitespace().nth(1)` from lib.rs line 204; the Rust code
calls `.unwrap()` on it, so `none` is a panic. -/
def bestmoveToken (line : String) : Option String :=
  (splitWhitespace line)[1]?

/-- The per-move interaction of the main loop: read until a `bestmove` line,
take its second token, decode it with `Move::from_uci` against the current
board and apply it (lib.rs lines 201-212). -/
inductive StepResult (Board : Type) where
  | block
  | crash
  | applied (b : Board) (tok : String)
deriving DecidableEq, Repr

def requestMove {B M : Type} (lib : ChessLib B M)
    (replies : List String → List String) (b : B) (moves : List String) :
    StepResult B :=
  match findBestmoveLine (replies moves) with
  | none => StepResult.block
  | some line =>
    match bestmoveToken line with
    | none => StepResult.crash
    | some tok =>
      match lib.from_uci tok b with
      | none => StepResult.crash
      | some m => StepResult.applied (lib.make_move b m) tok

/-- The result computed at lib.rs lines 164-172 when `generate_moves()` is
empty: `-1` (black wins) when white is to move and in check, `1` (white
wins) when black is to move and in check, `0` (draw) otherwise. -/
def stalemateResult {B M : Type} (lib : ChessLib B M) (b : B) : Int :=
  if lib.is_king_in_check b (lib.turn b) then
    match lib.turn b with
    | Turn.WHITE => -1
    | Turn.BLACK => 1
  else 0

/-- The main loop of `Game::play` (lib.rs lines 157-213). The loop only ever
exits through the `return` at lines 173-178; the `disconnect()` calls at
lines 214-215 come after the infinite `loop` and are unreachable, which is
why no branch below appends `quit` to a command log. -/
def playLoop {B M : Type} (lib : ChessLib B M) (wname bname : String)
    (whiteE blackE : List String → List String) (tc : TimeControl) :
    Nat → PlayState B → Outcome B
  | 0, _ => Outcome.diverged
  | fuel + 1, st =>
    if (lib.generate_moves st.board).isEmpty then
      Outcome.finished
        { white := wname, black := bname, moves_list := st.moves_list,
          result := stalemateResult lib st.board } st
    else
      match lib.turn st.board with
      | Turn.WHITE =>
        match requestMove lib whiteE st.board st.moves_list with
        | StepResult.block => Outcome.diverged
        | StepResult.crash => Outcome.crashed
        | StepResult.applied b2 tok =>
          playLoop lib wname bname whiteE blackE tc fuel
            { board := b2, moves_list := st.moves_list ++ [tok],
              white_cmds := st.white_cmds
                ++ [positionCommand st.moves_list, goCommand tc],
              black_cmds := st.black_cmds }
      | Turn.BLACK =>
        match requestMove lib blackE st.board st.moves_list with
        | StepResult.block => Outcome.diverged
        | StepResult.crash => Outcome.crashed
        | StepResult.applied b2 tok =>
          playLoop lib wname bname whiteE blackE tc fuel
            { board := b2, moves_list := st.moves_list ++ [tok],
              white_cmds := st.white_cmds,
              black_cmds := st.black_cmds
                ++ [positionCommand st.moves_list, goCommand tc] }

/-- `Game::play` started from the game constructed by `Game::new` (empty
move list, fresh board, no commands sent yet). -/
def Game.play {B M : Type} (lib : ChessLib B M) (initBoard : B)
    (wname bname : String) (whiteE blackE : List String → List String)
    (tc : TimeControl) (fuel : Nat) : Outcome B :=
  playLoop lib wname bname whiteE blackE tc fuel
    { board := initBoard, moves_list := [], white_cmds := [], black_cmds := [] }

/-- Each token decodes via `from_uci` at the board reached so far; the
successful decode chain of a move list. -/
def DecodedReplay {B M : Type} (lib : ChessLib B M) : B → List String → Prop
  | _, [] => True
  | b, tok :: rest =>
    ∃ m, lib.from_uci tok b = some m ∧ DecodedReplay lib (lib.make_move b m) rest

/-- Each token decodes to a move that is a member of `generate_moves` of the
position immediately before it is applied. -/
def ValidReplay {B M : Type} (lib : ChessLib B M) : B → List String → Prop
  | _, [] => True
  | b, tok :: rest =>
    ∃ m, lib.from_uci tok b = some m ∧ m ∈ lib.generate_moves b ∧
      ValidReplay lib (lib.make_move b m) rest

/-- The handshake read loop of `Engine::new` (lib.rs lines 65-72). The
remaining stdout lines of the child are given as a finite list; once it is
exhausted the child is at EOF and `read_line` fills `line` with the empty
string, which does not start with `uciok`, so the loop iterates again. The
result is `true` when the loop breaks on a `uciok` line within `fuel` reads
and `false` when it is still running after `fuel` reads. -/
def handshakeLoop : List String → Nat → Bool
  | _, 0 => false
  | [], fuel + 1 => handshakeLoop [] fuel
  | l :: rest, fuel + 1 =>
    if strStartsWith l "uciok" then true else handshakeLoop rest fuel

/-- `TournamentResult` (lib.rs lines 301-310). The Rust counters are `u64`;
one round increments each counter at most once and the round count fits in
an `i32`, so no counter can wrap and `Nat` is a faithful model. -/
structure TournamentResult where
  engine1 : String
  engine2 : String
  games_list : List GameResult
  engine1_won : Nat
  engine2_won : Nat
  draws : Nat
  total_games : Nat
deriving DecidableEq, Repr

/-- `TournamentResult::default` followed by the two name assignments at
lib.rs lines 362-364. -/
def TournamentResult.initial (n1 n2 : String) : TournamentResult :=
  { engine1 := n1, engine2 := n2, games_list := [], engine1_won := 0,
    engine2_won := 0, draws := 0, total_games := 0 }

/-- The per-round bookkeeping of `Tournament::start` (lib.rs lines 374-384):
push the game result, bump `total_games`, then credit `engine1_won`,
`engine2_won` or `draws` by comparing `winner()` against the two display
names in that order. -/
def applyGame (n1 n2 : String) (tr : TournamentResult) (gr : GameResult) :
    TournamentResult :=
  let tr1 : TournamentResult :=
    { tr with games_list := tr.games_list ++ [gr],
              total_games := tr.total_games + 1 }
  if gr.winner = n1 then { tr1 with engine1_won := tr1.engine1_won + 1 }
  else if gr.winner = n2 then { tr1 with engine2_won := tr1.engine2_won + 1 }
  else { tr1 with draws := tr1.draws + 1 }

/-- The color assignment and game of round `i` (lib.rs lines 369-374):
engine1 takes white when `i` is even, the colors swap when `i` is odd.
`playFn w b i` abstracts the `GameResult` that `game.play()` returns in
round `i` when the engine named `w` holds white and the one named `b` holds
black. -/
def roundGame (n1 n2 : String) (playFn : String → String → Nat → GameResult)
    (i : Nat) : GameResult :=
  if i % 2 = 0 then playFn n1 n2 i else playFn n2 n1 i

/-- The `for i in 0..rounds` loop body of `Tournament::start`. -/
def runRounds (n1 n2 : String) (playFn : String → String → Nat → GameResult) :
    List Nat → TournamentResult → TournamentResult
  | [], tr => tr
  | i :: rest, tr =>
    runRounds n1 n2 playFn rest (applyGame n1 n2 tr (roundGame n1 n2 playFn i))

/-- `Tournament::start` (lib.rs lines 361-387). `rounds` is the `i32` field
of `Tournament`; iterating `0..rounds` visits the naturals below `rounds`
and visits nothing when `rounds` is negative, which `Int.toNat` captures. -/
def Tournament.start (rounds : Int) (n1 n2 : String)
    (playFn : String → String → Nat → GameResult) : TournamentResult :=
  runRounds n1 n2 playFn (List.range rounds.toNat)
    (TournamentResult.initial n1 n2)

/-! ### Concrete instances used to exercise the code paths

The chess library is external, so concrete runs are driven by small
`ChessLib` instances whose boards are bare naturals. They stand for the
observable facts the claims rely on (which positions have legal moves and
which strings decode), not for full chess. -/

/-- A position with no legal moves and the king not in check: the immediate
stalemate instance. -/
def stuckLib : ChessLib Unit Unit :=
  { turn := fun _ => Turn.WHITE,
    generate_moves := fun _ => [],
    make_move := fun b _ => b,
    is_king_in_check := fun _ _ => false,
    from_uci := fun _ _ => none }

/-- A game of exactly one legal white move: board `0` (white to move) offers
the single move encoded `"m1"`, after which board `1` (black to move) is a
stalemate. -/
def oneMoveLib : ChessLib Nat Nat :=
  { turn := fun b => if b = 0 then Turn.WHITE else Turn.BLACK,
    generate_moves := fun b => if b = 0 then [0] else [],
    make_move := fun b _ => b + 1,
    is_king_in_check := fun _ _ => false,
    from_uci := fun s b => if b = 0 ∧ s = "m1" then some 0 else none }

/-- Modelled from the spec: at the standard opening position (board `0`,
white to move) legal moves exist, `"e2e4"` decodes, and neither `"e2e5"`
nor `"0000"` nor `"(none)"` is a legal move string, so `Move::from_uci`
fails on them (spec section 4.2). -/
def openingLib : ChessLib Nat Nat :=
  { turn := fun _ => Turn.WHITE,
    generate_moves := fun _ => [0],
    make_move := fun b _ => b + 1,
    is_king_in_check := fun _ _ => false,
    from_uci := fun s b => if b = 0 ∧ s = "e2e4" then some 0 else none }

/-- The knight-shuffle instance for threefold repetition: every position
offers a move, each applied move advances the board counter, and the
position (in the spec sense) is the counter modulo 4, so the start position
recurs every four plies. -/
def shuffleLib : ChessLib Nat Nat :=
  { turn := fun b => if b % 2 = 0 then Turn.WHITE else Turn.BLACK,
    generate_moves := fun _ => [0],
    make_move := fun b _ => b + 1,
    is_king_in_check := fun _ _ => false,
    from_uci := fun _ _ => some 0 }

/-- The position of the knight-shuffle game in the spec sense (piece
placement, side to move, castling rights, en-passant target) at board
counter `b`: the shuffle is a four-ply cycle, so the position is the
counter modulo 4 and the start position recurs at plies 0, 4 and 8. -/
def shufflePosition (b : Nat) : Nat := b % 4

/-- An engine that always answers with the one fixed `bestmove` line. -/
def constEngine (line : String) : List String → List String :=
  fun _ => [line]

/-- A play function for tournament runs whose every game is a draw. -/
def demoPlayFn : String → String → Nat → GameResult :=
  fun w b _ => { white := w, black := b, moves_list := [], result := 0 }

/-- A drawn game in which the white engine has the empty display name. -/
def demoDrawGame : GameResult :=
  { white := "", black := "B", moves_list := [], result := 0 }

/-- Claim C2: in `Game::play`, whenever `generate_moves()` returns an empty
set for the current position, the game terminates immediately with the
accumulated move list: when the side to move is in check the opposite side
wins (white to move gives result `-1`, so `winner()` is the black name;
black to move gives result `1`, so `winner()` is the white name), and
otherwise the outcome is a draw (result `0`, stalemate). -/
theorem C2_empty_moves_game_over {B M : Type} (lib : ChessLib B M)
    (wname bname : String) (wE bE : List String → List String)
    (tc : TimeControl) (fuel : Nat) (st : PlayState B)
    (hempty : lib.generate_moves st.board = []) :
    ∃ r, playLoop lib wname bname wE bE tc (fuel + 1) st =
        Outcome.finished r st ∧
      r.white = wname ∧ r.black = bname ∧ r.moves_list = st.moves_list ∧
      (lib.is_king_in_check st.board (lib.turn st.board) = true →
        (lib.turn st.board = Turn.WHITE → r.result = -1 ∧ r.winner = bname) ∧
        (lib.turn st.board = Turn.BLACK → r.result = 1 ∧ r.winner = wname)) ∧
      (lib.is_king_in_check st.board (lib.turn st.board) = false →
        r.result = 0 ∧ (wname ≠ "" → bname ≠ "" → r.winner = "")) := by
  refine ⟨{ white := wname, black := bname, moves_list := st.moves_list,
            result := stalemateResult lib st.board }, ?_, rfl, rfl, rfl, ?_, ?_⟩
  · simp [playLoop, hempty]
  · intro hc
    constructor
    · intro ht
      rw [ht] at hc
      simp [stalemateResult, ht, hc, GameResult.winner]
    · intro ht
      rw [ht] at hc
      simp [stalemateResult, ht, hc, GameResult.winner]
  · intro hc
    simp [stalemateResult, hc, GameResult.winner]

/-- Witness for C2 at the immediate-stalemate instance `stuckLib`. -/
theorem C2_witness :
    ∃ r, playLoop stuckLib "w" "b" (fun _ => []) (fun _ => [])
        TimeControl.Infinite 1
        { board := (), moves_list := [], white_cmds := [], black_cmds := [] } =
        Outcome.finished r
          { board := (), moves_list := [], white_cmds := [], black_cmds := [] } ∧
      r.white = "w" ∧ r.black = "b" ∧ r.moves_list = [] ∧
      (stuckLib.is_king_in_check () (stuckLib.turn ()) = true →
        (stuckLib.turn () = Turn.WHITE → r.result = -1 ∧ r.winner = "b") ∧
        (stuckLib.turn () = Turn.BLACK → r.result = 1 ∧ r.winner = "w")) ∧
      (stuckLib.is_king_in_check () (stuckLib.turn ()) = false →
        r.result = 0 ∧ ("w" ≠ "" → "b" ≠ "" → r.winner = "")) :=
  C2_empty_moves_game_over stuckLib "w" "b" (fun _ => []) (fun _ => [])
    TimeControl.Infinite 0
    { board := (), moves_list := [], white_cmds := [], black_cmds := [] } rfl

/-- Claim C6 (refutation): a normally terminating run of `Game::play`
returns without either engine process ever being sent `quit`. White plays
its single legal move, the game ends in stalemate, and the complete command
logs hold only the `position` and `go` commands: the `disconnect()` calls at
lib.rs lines 214-215 sit after the infinite `loop` and are unreachable. -/
theorem C6_no_disconnect_on_return :
    Game.play oneMoveLib 0 "w" "b" (constEngine "bestmove m1")
        (constEngine "bestmove x") (TimeControl.TimePerMove 50) 3 =
      Outcome.finished
        { white := "w", black := "b", moves_list := ["m1"], result := 0 }
        { board := 1, moves_list := ["m1"],
          white_cmds := ["position startpos\n", "go movetime 50\n"],
          black_cmds := [] } ∧
    ¬ "quit\n" ∈ ["position startpos\n", "go movetime 50\n"] := by
  decide

/-- Claim C4 (refutation): when white answers `bestmove e2e5` at the opening
position, `Game::play` pushes the token and then panics inside
`Move::from_uci` (modelled from the spec: `e2e5` is not a legal move
string there), so no `GameResult` is produced at all — in particular no
`BlackWin` forfeit. -/
theorem C4_illegal_move_no_forfeit (fuel : Nat) :
    Game.play openingLib 0 "white" "black" (constEngine "bestmove e2e5")
      (constEngine "bestmove e7e5") (TimeControl.TimePerMove 50) (fuel + 1) =
      Outcome.crashed := by
  have h : requestMove openingLib (constEngine "bestmove e2e5") 0 [] =
      StepResult.crash := by decide
  have hg : (openingLib.generate_moves 0).isEmpty = false := by decide
  have ht : openingLib.turn 0 = Turn.WHITE := by decide
  simp [Game.play, playLoop, hg, ht, h]

/-- Claim C5 (refutation): when white answers `bestmove 0000` or
`bestmove (none)` at the opening position, where legal moves exist,
`Game::play` pushes the token and panics inside `Move::from_uci` instead of
forfeiting white and crediting black. -/
theorem C5_nullmove_no_forfeit (fuel : Nat) :
    Game.play openingLib 0 "white" "black" (constEngine "bestmove 0000")
        (constEngine "bestmove e7e5") (TimeControl.TimePerMove 50) (fuel + 1) =
      Outcome.crashed ∧
    Game.play openingLib 0 "white" "black" (constEngine "bestmove (none)")
        (constEngine "bestmove e7e5") (TimeControl.TimePerMove 50) (fuel + 1) =
      Outcome.crashed := by
  have h1 : requestMove openingLib (constEngine "bestmove 0000") 0 [] =
      StepResult.crash := by decide
  have h2 : requestMove openingLib (constEngine "bestmove (none)") 0 [] =
      StepResult.crash := by decide
  have hg : (openingLib.generate_moves 0).isEmpty = false := by decide
  have ht : openingLib.turn 0 = Turn.WHITE := by decide
  constructor
  · simp [Game.play, playLoop, hg, ht, h1]
  · simp [Game.play, playLoop, hg, ht, h2]

/-- Claim C3 (refutation): `Game::play` holds no position history and never
adjudicates repetition. In the knight-shuffle game every applied move steps
the board counter by one, the position recurs every four plies
(`shufflePosition` coincides at plies 0, 4 and 8, the third occurrence of
the start position), yet from any state the loop keeps requesting moves
forever instead of declaring a draw there: it returns no `GameResult`
under any fuel. -/
theorem C3_no_repetition_draw :
    (∀ k : Nat, (fun b => shuffleLib.make_move b 0)^[k] 0 = k) ∧
    shufflePosition 0 = shufflePosition 4 ∧
    shufflePosition 4 = shufflePosition 8 ∧
    ∀ (fuel : Nat) (st : PlayState Nat),
      playLoop shuffleLib "w" "b" (constEngine "bestmove g1f3")
        (constEngine "bestmove g8f6") (TimeControl.TimePerMove 50) fuel st =
        Outcome.diverged := by
  refine ⟨?_, rfl, rfl, ?_⟩
  · intro k
    induction k with
    | zero => rfl
    | succ n ih =>
      rw [Function.iterate_succ_apply', ih]
      rfl
  · intro fuel
    induction fuel with
    | zero =>
      intro st
      rfl
    | succ n ih =>
      intro st
      have hw : requestMove shuffleLib (constEngine "bestmove g1f3") st.board
          st.moves_list = StepResult.applied (st.board + 1) "g1f3" := by
        have hl : findBestmoveLine ["bestmove g1f3"] = some "bestmove g1f3" := by
          decide
        have htk : bestmoveToken "bestmove g1f3" = some "g1f3" := by decide
        simp [requestMove, constEngine, hl, htk, shuffleLib]
      have hb : requestMove shuffleLib (constEngine "bestmove g8f6") st.board
          st.moves_list = StepResult.applied (st.board + 1) "g8f6" := by
        have hl : findBestmoveLine ["bestmove g8f6"] = some "bestmove g8f6" := by
          decide
        have htk : bestmoveToken "bestmove g8f6" = some "g8f6" := by decide
        simp [requestMove, constEngine, hl, htk, shuffleLib]
      have hg : (shuffleLib.generate_moves st.board).isEmpty = false := rfl
      by_cases hp : st.board % 2 = 0
      · have ht : shuffleLib.turn st.board = Turn.WHITE := by
          simp [shuffleLib, hp]
        simp [playLoop, hg, ht, hw, ih]
      · have ht : shuffleLib.turn st.board = Turn.BLACK := by
          simp [shuffleLib, hp]
        simp [playLoop, hg, ht, hb, ih]

/-- The handshake read loop of `Engine::new` never exits while the child
emits no `uciok` line: after the lines are exhausted (EOF on the dead
child), `read_line` keeps yielding the empty line and the loop spins. -/
theorem handshake_no_uciok : ∀ (fuel : Nat) (lines : List String),
    (∀ l ∈ lines, strStartsWith l "uciok" = false) →
    handshakeLoop lines fuel = false
  | 0, lines, _ => by cases lines <;> rfl
  | fuel + 1, [], h => by
    have := handshake_no_uciok fuel [] h
    simpa [handshakeLoop] using this
  | fuel + 1, l :: rest, h => by
    have hl : strStartsWith l "uciok" = false := h l (by simp)
    have := handshake_no_uciok fuel rest (fun x hx => h x (by simp [hx]))
    simpa [handshakeLoop, hl] using this

/-- Claim C7 (refutation): a child that emits only `id` lines and then
closes its stdout leaves `Engine::new` spinning in the handshake read loop
forever — no amount of reads makes it exit, so construction neither
terminates nor fails with `HandshakeFailed`. -/
theorem C7_handshake_spins (fuel : Nat) :
    handshakeLoop ["id name mock", "id author mock"] fuel = false :=
  handshake_no_uciok fuel ["id name mock", "id author mock"] (by decide)

/-- Inverting a successful per-move interaction: the applied board comes
from `make_move` on a move that `from_uci` decoded from the appended token
at the pre-move board. -/
theorem requestMove_applied {B M : Type} (lib : ChessLib B M)
    (replies : List String → List String) (b b2 : B) (moves : List String)
    (tok : String)
    (h : requestMove lib replies b moves = StepResult.applied b2 tok) :
    ∃ m, lib.from_uci tok b = some m ∧ b2 = lib.make_move b m := by
  unfold requestMove at h
  split at h
  · exact absurd h (by simp)
  · split at h
    · exact absurd h (by simp)
    · split at h
      · exact absurd h (by simp)
      · rename_i m hu
        simp only [StepResult.applied.injEq] at h
        obtain ⟨hb2, htok⟩ := h
        subst htok
        exact ⟨m, hu, hb2.symm⟩

/-- Loop invariant for `Game::play`: a returned `GameResult` extends the
move list of the entry state by a suffix every token of which decoded via
`from_uci` at the board reached before it. -/
theorem playLoop_finished_decodes {B M : Type} (lib : ChessLib B M)
    (wname bname : String) (wE bE : List String → List String)
    (tc : TimeControl) : ∀ (fuel : Nat) (st : PlayState B) (r : GameResult)
    (fin : PlayState B),
    playLoop lib wname bname wE bE tc fuel st = Outcome.finished r fin →
    ∃ suf, r.moves_list = st.moves_list ++ suf ∧
      DecodedReplay lib st.board suf := by
  intro fuel
  induction fuel with
  | zero =>
    intro st r fin h
    exact absurd h (by simp [playLoop])
  | succ n ih =>
    intro st r fin h
    rw [playLoop] at h
    by_cases he : (lib.generate_moves st.board).isEmpty
    · rw [if_pos he] at h
      simp only [Outcome.finished.injEq] at h
      obtain ⟨hr, _⟩ := h
      refine ⟨[], ?_, trivial⟩
      rw [← hr]
      simp
    · rw [if_neg he] at h
      cases htn : lib.turn st.board with
      | WHITE =>
        rw [htn] at h
        cases hrm : requestMove lib wE st.board st.moves_list with
        | block => rw [hrm] at h; simp at h
        | crash => rw [hrm] at h; simp at h
        | applied b2 tok =>
          rw [hrm] at h
          obtain ⟨m, hm, hb2⟩ := requestMove_applied lib wE _ _ _ _ hrm
          obtain ⟨suf, hsuf, hdec⟩ := ih _ r fin h
          refine ⟨tok :: suf, ?_, ?_⟩
          · simpa [List.append_assoc] using hsuf
          · exact ⟨m, hm, by rw [← hb2]; exact hdec⟩
      | BLACK =>
        rw [htn] at h
        cases hrm : requestMove lib bE st.board st.moves_list with
        | block => rw [hrm] at h; simp at h
        | crash => rw [hrm] at h; simp at h
        | applied b2 tok =>
          rw [hrm] at h
          obtain ⟨m, hm, hb2⟩ := requestMove_applied lib bE _ _ _ _ hrm
          obtain ⟨suf, hsuf, hdec⟩ := ih _ r fin h
          refine ⟨tok :: suf, ?_, ?_⟩
          · simpa [List.append_assoc] using hsuf
          · exact ⟨m, hm, by rw [← hb2]; exact hdec⟩

/-- When `from_uci` only ever decodes to members of `generate_moves` (spec
section 4.2), a decoded chain is a validated chain. -/
theorem decoded_valid {B M : Type} (lib : ChessLib B M)
    (hvalid : ∀ s b m, lib.from_uci s b = some m → m ∈ lib.generate_moves b) :
    ∀ (l : List String) (b : B), DecodedReplay lib b l → ValidReplay lib b l
  | [], _, _ => trivial
  | tok :: rest, b, h => by
    obtain ⟨m, hm, hrest⟩ := h
    exact ⟨m, hm, hvalid tok b m hm,
      decoded_valid lib hvalid rest (lib.make_move b m) hrest⟩

/-- Claim C1: for every game produced by `Game::play`, every UCI move token
in the returned `moves_list` was validated for membership in
`generate_moves()` at the position immediately before the move was applied.
The validation itself lives in the external `Move::from_uci` (modelled from
the spec, hypothesis `hvalid`); a token it rejects panics the game before
any `GameResult` is produced, so a produced game only carries tokens that
decoded — and hence were validated — at their pre-move boards. -/
theorem C1_moves_validated {B M : Type} (lib : ChessLib B M) (initBoard : B)
    (wname bname : String) (wE bE : List String → List String)
    (tc : TimeControl) (fuel : Nat) (r : GameResult) (fin : PlayState B)
    (hvalid : ∀ s b m, lib.from_uci s b = some m → m ∈ lib.generate_moves b)
    (hplay : Game.play lib initBoard wname bname wE bE tc fuel =
      Outcome.finished r fin) :
    ValidReplay lib initBoard r.moves_list := by
  obtain ⟨suf, hsuf, hdec⟩ :=
    playLoop_finished_decodes lib wname bname wE bE tc fuel _ r fin hplay
  have hs : r.moves_list = suf := by simpa using hsuf
  rw [hs]
  exact decoded_valid lib hvalid suf initBoard hdec

/-- Witness for C1: the one-move game returns `moves_list = ["m1"]`, and
that list is a validated replay from the start board of `oneMoveLib`. -/
theorem C1_witness : ValidReplay oneMoveLib 0 ["m1"] := by
  have hvalid : ∀ s b m, oneMoveLib.from_uci s b = some m →
      m ∈ oneMoveLib.generate_moves b := by
    intro s b m hm
    by_cases hb : b = 0 ∧ s = "m1"
    · obtain ⟨hb0, hs⟩ := hb
      subst hb0
      subst hs
      simp [oneMoveLib] at hm
      simp [oneMoveLib, ← hm]
    · simp [oneMoveLib, hb] at hm
  have hplay : Game.play oneMoveLib 0 "w" "b" (constEngine "bestmove m1")
      (constEngine "bestmove x") (TimeControl.TimePerMove 50) 3 =
      Outcome.finished
        { white := "w", black := "b", moves_list := ["m1"], result := 0 }
        { board := 1, moves_list := ["m1"],
          white_cmds := ["position startpos\n", "go movetime 50\n"],
          black_cmds := [] } := by decide
  exact C1_moves_validated oneMoveLib 0 "w" "b" (constEngine "bestmove m1")
    (constEngine "bestmove x") (TimeControl.TimePerMove 50) 3 _ _ hvalid hplay

/-- One round of bookkeeping bumps `total_games` by one. -/
theorem applyGame_total (n1 n2 : String) (tr : TournamentResult)
    (gr : GameResult) :
    (applyGame n1 n2 tr gr).total_games = tr.total_games + 1 := by
  simp only [applyGame]
  split
  · rfl
  · split
    · rfl
    · rfl

/-- One round of bookkeeping bumps exactly one of the three tallies. -/
theorem applyGame_tally (n1 n2 : String) (tr : TournamentResult)
    (gr : GameResult) :
    (applyGame n1 n2 tr gr).engine1_won + (applyGame n1 n2 tr gr).engine2_won
        + (applyGame n1 n2 tr gr).draws
      = tr.engine1_won + tr.engine2_won + tr.draws + 1 := by
  simp only [applyGame]
  split
  · simp
    omega
  · split
    · simp
      omega
    · simp
      omega

/-- One round of bookkeeping appends the game to `games_list`. -/
theorem applyGame_games (n1 n2 : String) (tr : TournamentResult)
    (gr : GameResult) :
    (applyGame n1 n2 tr gr).games_list = tr.games_list ++ [gr] := by
  simp only [applyGame]
  split
  · rfl
  · split
    · rfl
    · rfl

/-- Tally invariant of the round loop of `Tournament::start`. -/
theorem runRounds_tally (n1 n2 : String)
    (playFn : String → String → Nat → GameResult) :
    ∀ (idxs : List Nat) (tr : TournamentResult),
    (runRounds n1 n2 playFn idxs tr).engine1_won
        + (runRounds n1 n2 playFn idxs tr).engine2_won
        + (runRounds n1 n2 playFn idxs tr).draws
      = tr.engine1_won + tr.engine2_won + tr.draws + idxs.length ∧
    (runRounds n1 n2 playFn idxs tr).total_games
      = tr.total_games + idxs.length
  | [], tr => by simp [runRounds]
  | i :: rest, tr => by
    have ih := runRounds_tally n1 n2 playFn rest
      (applyGame n1 n2 tr (roundGame n1 n2 playFn i))
    have h1 := applyGame_tally n1 n2 tr (roundGame n1 n2 playFn i)
    have h2 := applyGame_total n1 n2 tr (roundGame n1 n2 playFn i)
    simp only [runRounds, List.length_cons]
    omega

/-- Game-list invariant of the round loop of `Tournament::start`. -/
theorem runRounds_games (n1 n2 : String)
    (playFn : String → String → Nat → GameResult) :
    ∀ (idxs : List Nat) (tr : TournamentResult),
    (runRounds n1 n2 playFn idxs tr).games_list
      = tr.games_list ++ idxs.map (roundGame n1 n2 playFn)
  | [], tr => by simp [runRounds]
  | i :: rest, tr => by
    have ih := runRounds_games n1 n2 playFn rest
      (applyGame n1 n2 tr (roundGame n1 n2 playFn i))
    simp only [runRounds, List.map_cons]
    rw [ih, applyGame_games]
    simp

/-- Claim C8 counterexample: `Tournament::new` accepts any `i32` round
count; with `rounds = -1` the loop body never runs, `total_games` is `0`,
and `total_games ≤ rounds` fails. -/
theorem C8_counterexample :
    ¬ (((Tournament.start (-1) "A" "B" demoPlayFn).total_games : Int) ≤ -1) := by
  decide

/-- Claim C8 (amended): for every `TournamentResult` returned by
`Tournament::start` — whatever the configured `i32` round count —
`engine1_won + engine2_won + draws = total_games`; and whenever the
configured number of rounds is nonnegative, `total_games` equals that
number of rounds, and in particular is at most it. -/
theorem C8_tally_sum (rounds : Int) (n1 n2 : String)
    (playFn : String → String → Nat → GameResult) :
    ((Tournament.start rounds n1 n2 playFn).engine1_won
        + (Tournament.start rounds n1 n2 playFn).engine2_won
        + (Tournament.start rounds n1 n2 playFn).draws
      = (Tournament.start rounds n1 n2 playFn).total_games) ∧
    (0 ≤ rounds →
      ((Tournament.start rounds n1 n2 playFn).total_games : Int) = rounds ∧
      ((Tournament.start rounds n1 n2 playFn).total_games : Int) ≤ rounds) := by
  have ht := runRounds_tally n1 n2 playFn (List.range rounds.toNat)
    (TournamentResult.initial n1 n2)
  simp only [Tournament.start, TournamentResult.initial,
    List.length_range] at ht ⊢
  omega

/-- Witness for C8 at a two-round all-draw tournament, discharging the
nonnegativity hypothesis of the bounded half. -/
theorem C8_witness :
    ((Tournament.start 2 "A" "B" demoPlayFn).engine1_won
        + (Tournament.start 2 "A" "B" demoPlayFn).engine2_won
        + (Tournament.start 2 "A" "B" demoPlayFn).draws
      = (Tournament.start 2 "A" "B" demoPlayFn).total_games) ∧
    ((Tournament.start 2 "A" "B" demoPlayFn).total_games : Int) = 2 ∧
    ((Tournament.start 2 "A" "B" demoPlayFn).total_games : Int) ≤ 2 :=
  ⟨(C8_tally_sum 2 "A" "B" demoPlayFn).1,
   (C8_tally_sum 2 "A" "B" demoPlayFn).2 (by decide)⟩

/-- Claim C9: in round `i` (0-indexed) of `Tournament::start`, engine1
holds white and engine2 holds black exactly when `i` is even, and the
colors swap when `i` is odd: the game recorded for round `i` is the play
with the white name first. -/
theorem C9_color_rotation (rounds : Int) (n1 n2 : String)
    (playFn : String → String → Nat → GameResult) (i : Nat)
    (hi : i < rounds.toNat) :
    (Tournament.start rounds n1 n2 playFn).games_list[i]? =
      some (playFn (if i % 2 = 0 then n1 else n2)
        (if i % 2 = 0 then n2 else n1) i) := by
  have hg := runRounds_games n1 n2 playFn (List.range rounds.toNat)
    (TournamentResult.initial n1 n2)
  simp only [Tournament.start, TournamentResult.initial] at hg ⊢
  rw [hg]
  simp only [List.nil_append, List.getElem?_map, List.getElem?_range hi,
    Option.map_some']
  by_cases hp : i % 2 = 0
  · simp [roundGame, hp]
  · simp [roundGame, hp]

/-- Witness for C9: in the four-round demo tournament, round 1 has engine2
as white. -/
theorem C9_witness :
    (Tournament.start 4 "A" "B" demoPlayFn).games_list[1]? =
      some (demoPlayFn (if 1 % 2 = 0 then "A" else "B")
        (if 1 % 2 = 0 then "B" else "A") 1) :=
  C9_color_rotation 4 "A" "B" demoPlayFn 1 (by decide)

/-- Claim C10: a finished game is credited to `engine1_won` exactly when
`winner()` equals engine1's display name, to `engine2_won` exactly when
`winner()` misses engine1's name and equals engine2's, and to `draws`
otherwise; `winner()` is the white name for result `1`, the black name for
result `-1`, and the empty string otherwise. Consequently a drawn game
(result `0`, winner `""`) in a tournament where engine1's display name is
the empty string is credited to `engine1_won` and not to `draws`, and
likewise to `engine2_won` when only engine2's name is empty. -/
theorem C10_empty_name_steals_draws (n1 n2 : String) (tr : TournamentResult)
    (gr : GameResult) :
    ((applyGame n1 n2 tr gr).engine1_won
        = tr.engine1_won + (if gr.winner = n1 then 1 else 0)) ∧
    ((applyGame n1 n2 tr gr).engine2_won
        = tr.engine2_won + (if gr.winner ≠ n1 ∧ gr.winner = n2 then 1 else 0)) ∧
    ((applyGame n1 n2 tr gr).draws
        = tr.draws + (if gr.winner ≠ n1 ∧ gr.winner ≠ n2 then 1 else 0)) ∧
    (gr.result = 1 → gr.winner = gr.white) ∧
    (gr.result = -1 → gr.winner = gr.black) ∧
    (gr.result = 0 → gr.winner = "") ∧
    (n1 = "" → gr.result = 0 →
      (applyGame n1 n2 tr gr).engine1_won = tr.engine1_won + 1 ∧
      (applyGame n1 n2 tr gr).draws = tr.draws) ∧
    (n1 ≠ "" → n2 = "" → gr.result = 0 →
      (applyGame n1 n2 tr gr).engine2_won = tr.engine2_won + 1 ∧
      (applyGame n1 n2 tr gr).draws = tr.draws) := by
  have hw1 : gr.result = 1 → gr.winner = gr.white := by
    intro h
    simp [GameResult.winner, h]
  have hwm1 : gr.result = -1 → gr.winner = gr.black := by
    intro h
    simp [GameResult.winner, h]
  have hw0 : gr.result = 0 → gr.winner = "" := by
    intro h
    simp [GameResult.winner, h]
  refine ⟨?_, ?_, ?_, hw1, hwm1, hw0, ?_, ?_⟩
  · by_cases h1 : gr.winner = n1
    · simp [applyGame, h1]
    · by_cases h2 : gr.winner = n2
      · have h1x : ¬ n2 = n1 := by rw [← h2]; exact h1
        simp [applyGame, h1, h2, h1x]
      · simp [applyGame, h1, h2]
  · by_cases h1 : gr.winner = n1
    · simp [applyGame, h1]
    · by_cases h2 : gr.winner = n2
      · have h1x : ¬ n2 = n1 := by rw [← h2]; exact h1
        simp [applyGame, h1, h2, h1x]
      · simp [applyGame, h1, h2]
  · by_cases h1 : gr.winner = n1
    · simp [applyGame, h1]
    · by_cases h2 : gr.winner = n2
      · have h1x : ¬ n2 = n1 := by rw [← h2]; exact h1
        simp [applyGame, h1, h2, h1x]
      · simp [applyGame, h1, h2]
  · intro hn1 hres
    have h1 : gr.winner = n1 := by rw [hw0 hres, hn1]
    constructor
    · simp [applyGame, h1]
    · simp [applyGame, h1]
  · intro hn1 hn2 hres
    have h1 : ¬ gr.winner = n1 := by rw [hw0 hres]; exact fun hh => hn1 hh.symm
    have h2 : gr.winner = n2 := by rw [hw0 hres, hn2]
    have h1x : ¬ n2 = n1 := by rw [← h2]; exact h1
    constructor
    · simp [applyGame, h1, h2, h1x]
    · simp [applyGame, h1, h2, h1x]

/-- Witness for C10: with engine1's display name empty, a drawn game is
credited to `engine1_won` and the draw counter stays at zero. -/
theorem C10_witness :
    (applyGame "" "B" (TournamentResult.initial "" "B")
        demoDrawGame).engine1_won
      = (TournamentResult.initial "" "B").engine1_won + 1 ∧
    (applyGame "" "B" (TournamentResult.initial "" "B") demoDrawGame).draws
      = (TournamentResult.initial "" "B").draws :=
  (C10_empty_name_steals_draws "" "B" (TournamentResult.initial "" "B")
    demoDrawGame).2.2.2.2.2.2.1 rfl rfl

end Arena
